import Mathlib

/-!
Shallow embedding of the asynchronous video ingestion pipeline implemented in
`src/server/services/videoProcessor.js` of the Video-Management-System
repository, together with theorems settling the specification claims about
the frame classifier, the verdict aggregator and the `processVideo`
orchestrator.

Strings are modelled as `List Char`; the JavaScript string operations used by
the source (`trim`, `toUpperCase`, `toLowerCase`, `includes`) are modelled
over the ASCII range, which covers every literal the source compares against.
-/

/-- ASCII whitespace, the fragment of the JS `trim` character class relevant
to the literals the source matches on. -/
def wsChar (c : Char) : Bool :=
  c == ' ' || c == '\t' || c == '\n' || c == '\r' || c == '\x0B' || c == '\x0C'

/-- `startsWithB tok l` : the token `tok` is an initial run of `l`. -/
def startsWithB : List Char → List Char → Bool
  | [], _ => true
  | _ :: _, [] => false
  | a :: as, b :: bs => a == b && startsWithB as bs

/-- `containsSub tok l` : the token `tok` occurs contiguously inside `l`;
this models JS `String.prototype.includes`. -/
def containsSub (tok : List Char) : List Char → Bool
  | [] => startsWithB tok []
  | c :: ls => startsWithB tok (c :: ls) || containsSub tok ls

/-- JS `String.prototype.trim`: strip leading and trailing whitespace. -/
def trimL (l : List Char) : List Char :=
  ((l.dropWhile wsChar).reverse.dropWhile wsChar).reverse

/-- JS `toUpperCase` on the ASCII range (`Char.toUpper` per character). -/
def upperL (l : List Char) : List Char := l.map Char.toUpper

/-- JS `toLowerCase` on the ASCII range (`Char.toLower` per character). -/
def lowerL (l : List Char) : List Char := l.map Char.toLower

/-- A per-frame verdict as handled by `analyzeVideoSafety`: the two verdicts
`analyzeFrame` can return, plus `ERROR` for a frame whose analysis threw out
of `analyzeFrame` and was caught by the frame loop (videoProcessor.js:96-104). -/
inductive Verdict where
  | FLAGGED
  | SAFE
  | ERROR
deriving DecidableEq, Repr

/-- The reply-parsing step of `analyzeFrame` (videoProcessor.js:44-49):
`result.response.text().trim().toUpperCase()` contains `'FLAGGED'`. -/
def analyzeFrameParse (reply : List Char) : Verdict :=
  if containsSub "FLAGGED".data (upperL (trimL reply)) then .FLAGGED else .SAFE

/-- The catch branch of `analyzeFrame` (videoProcessor.js:51-61): an error
whose message contains `'quota'` or `'429'` defaults the frame to FLAGGED
(manual review); every other error defaults the frame to SAFE. -/
def defaultVerdict (msg : List Char) : Verdict :=
  if containsSub "quota".data msg || containsSub "429".data msg then .FLAGGED else .SAFE

/-- Oracle for one `analyzeFrame` call: either the model returned a free-text
reply, or the call threw an error with the given message (caught inside
`analyzeFrame`), or the loop body itself threw so that the frame loop's own
catch runs (the only way `analyzeVideoSafety` records an ERROR frame). -/
inductive FrameEnv where
  | reply (text : List Char)
  | modelErr (msg : List Char)
  | loopRaise (msg : List Char)

/-- `analyzeFrame` (videoProcessor.js:17-62) as a function of its oracle:
it never rejects on the reply path or the caught-error path. -/
def analyzeFrame : FrameEnv → Except (List Char) Verdict
  | .reply t => .ok (analyzeFrameParse t)
  | .modelErr m => .ok (defaultVerdict m)
  | .loopRaise m => .error m

/-- One iteration of the `analyzeVideoSafety` frame loop
(videoProcessor.js:73-105): a rejected `analyzeFrame` call is recorded as an
ERROR frame, otherwise the returned verdict is kept. -/
def frameVerdict (e : FrameEnv) : Verdict :=
  match analyzeFrame e with
  | .ok v => v
  | .error _ => .ERROR

/-- Video-level aggregate disposition. -/
inductive AggStatus where
  | safe
  | flagged
deriving DecidableEq, Repr

/-- JS `Math.round` on an exact rational: round half toward positive
infinity. -/
def jsRound (q : ℚ) : Int := Int.floor (q + 1 / 2)

/-- The aggregate returned by `analyzeVideoSafety` (videoProcessor.js:124-134). -/
structure SafetyAnalysis where
  status : AggStatus
  sensitivityScore : Int
  totalFrames : Nat
  analyzedFrames : Nat
  flaggedFrames : Nat
  safeFrames : Nat
  errorFrames : Nat
deriving DecidableEq, Repr

/-- `analyzeVideoSafety` (videoProcessor.js:64-135): count per-frame verdicts,
compute the flagged percentage over the successfully analyzed frames
(`totalFrames - errorCount`, with percentage 0 when none were analyzed), flag
the video when that percentage strictly exceeds 60, and round the percentage
into the sensitivity score. -/
def flaggedCountOf (frames : List FrameEnv) : Nat :=
  (frames.map frameVerdict).count .FLAGGED

def safeCountOf (frames : List FrameEnv) : Nat :=
  (frames.map frameVerdict).count .SAFE

def errorCountOf (frames : List FrameEnv) : Nat :=
  (frames.map frameVerdict).count .ERROR

/-- `analyzedFrames = totalFrames - errorCount` (videoProcessor.js:108). -/
def analyzedCountOf (frames : List FrameEnv) : Nat :=
  frames.length - errorCountOf frames

/-- `flaggedPercentage` (videoProcessor.js:109): percentage of flagged frames
among the successfully analyzed ones, 0 when none were analyzed. -/
def flaggedPercentageOf (frames : List FrameEnv) : ℚ :=
  if analyzedCountOf frames > 0 then
    ((flaggedCountOf frames : ℚ) / (analyzedCountOf frames : ℚ)) * 100
  else 0

def analyzeVideoSafety (frames : List FrameEnv) : SafetyAnalysis :=
  { status := if flaggedPercentageOf frames > 60 then .flagged else .safe
    sensitivityScore := jsRound (flaggedPercentageOf frames)
    totalFrames := frames.length
    analyzedFrames := analyzedCountOf frames
    flaggedFrames := flaggedCountOf frames
    safeFrames := safeCountOf frames
    errorFrames := errorCountOf frames }

/-- The specification-level reading of "the reply contains the literal token
`tok` case-insensitively": some contiguous run of the reply upper-cases to
`tok`. -/
def containsTokenCI (reply tok : List Char) : Prop :=
  ∃ sub : List Char, sub <:+: reply ∧ upperL sub = tok

theorem startsWithB_iff (tok l : List Char) :
    startsWithB tok l = true ↔ tok <+: l := by
  induction tok generalizing l with
  | nil => simp [startsWithB]
  | cons a as ih =>
    cases l with
    | nil => simp [startsWithB]
    | cons b bs =>
      simp only [startsWithB, Bool.and_eq_true, beq_iff_eq, ih, List.cons_prefix_cons]

theorem containsSub_iff (tok l : List Char) :
    containsSub tok l = true ↔ tok <:+: l := by
  induction l with
  | nil =>
    simp only [containsSub, startsWithB_iff, List.infix_nil]
    constructor
    · intro h
      exact List.prefix_nil.mp h
    · intro h
      subst h
      exact List.nil_prefix
  | cons c ls ih =>
    simp only [containsSub, Bool.or_eq_true, startsWithB_iff, ih]
    constructor
    · rintro (h | h)
      · exact h.isInfix
      · exact List.infix_cons_iff.mpr (Or.inr h)
    · intro h
      rcases List.infix_cons_iff.mp h with h | h
      · exact Or.inl h
      · exact Or.inr h

theorem reverse_isInfix_iff (l₁ l₂ : List Char) : l₁.reverse <:+: l₂.reverse ↔ l₁ <:+: l₂ :=
  List.reverse_infix

theorem wsChar_toUpper {c : Char} (h : wsChar c = true) : Char.toUpper c = c := by
  simp only [wsChar, Bool.or_eq_true, beq_iff_eq] at h
  rcases h with ((((h | h) | h) | h) | h) | h <;> subst h <;> decide

theorem infix_dropWhile_of_nonws {tok : List Char} (l : List Char)
    (hne : tok ≠ []) (hws : ∀ c ∈ tok, wsChar c = false) (h : tok <:+: l) :
    tok <:+: l.dropWhile wsChar := by
  induction l with
  | nil => exact absurd (List.infix_nil.mp h) hne
  | cons c ls ih =>
    rcases List.infix_cons_iff.mp h with h | h
    · cases tok with
      | nil => exact absurd rfl hne
      | cons a as =>
        obtain ⟨hac, -⟩ := List.cons_prefix_cons.mp h
        have hcws : wsChar c = false := hac ▸ hws a (List.mem_cons_self a as)
        rw [List.dropWhile_cons, hcws]
        simpa using h.isInfix
    · by_cases hcws : wsChar c = true
      · rw [List.dropWhile_cons, if_pos hcws]
        exact ih h
      · rw [List.dropWhile_cons, if_neg hcws]
        exact List.infix_cons_iff.mpr (Or.inr h)

theorem trimL_isInfix (l : List Char) : trimL l <:+: l := by
  have h1 : (l.dropWhile wsChar) <:+ l := List.dropWhile_suffix wsChar
  have h2 : ((l.dropWhile wsChar).reverse.dropWhile wsChar) <:+ (l.dropWhile wsChar).reverse :=
    List.dropWhile_suffix wsChar
  have h3 : ((l.dropWhile wsChar).reverse.dropWhile wsChar).reverse <+: (l.dropWhile wsChar) := by
    rw [← List.reverse_suffix]
    simpa using h2
  exact (h3.isInfix).trans h1.isInfix

theorem infix_trimL_of_nonws {tok l : List Char}
    (hne : tok ≠ []) (hws : ∀ c ∈ tok, wsChar c = false) (h : tok <:+: l) :
    tok <:+: trimL l := by
  have h1 : tok <:+: l.dropWhile wsChar := infix_dropWhile_of_nonws l hne hws h
  have h2 : tok.reverse <:+: (l.dropWhile wsChar).reverse :=
    (reverse_isInfix_iff tok (l.dropWhile wsChar)).mpr h1
  have hne2 : tok.reverse ≠ [] := by
    simpa using hne
  have hws2 : ∀ c ∈ tok.reverse, wsChar c = false := by
    intro c hc
    exact hws c (List.mem_reverse.mp hc)
  have h3 : tok.reverse <:+: ((l.dropWhile wsChar).reverse.dropWhile wsChar) :=
    infix_dropWhile_of_nonws _ hne2 hws2 h2
  have h4 := (reverse_isInfix_iff tok (((l.dropWhile wsChar).reverse.dropWhile wsChar).reverse)).mp
  rw [List.reverse_reverse] at h4
  exact h4 h3

theorem infix_upperL_iff (tok l : List Char) :
    tok <:+: upperL l ↔ ∃ sub : List Char, sub <:+: l ∧ upperL sub = tok := by
  constructor
  · rintro ⟨s, t, hst⟩
    have hmap : upperL l = s ++ (tok ++ t) := by
      rw [← hst, List.append_assoc]
    obtain ⟨l₁, l₂, hl, -, hmap₂⟩ := List.map_eq_append_iff.mp hmap
    obtain ⟨l₃, l₄, hl₂, hmap₃, -⟩ := List.map_eq_append_iff.mp hmap₂
    refine ⟨l₃, ⟨l₁, l₄, ?_⟩, hmap₃⟩
    rw [List.append_assoc, ← hl₂, ← hl]
  · rintro ⟨sub, hsub, hup⟩
    have := List.IsInfix.map Char.toUpper hsub
    rw [show List.map Char.toUpper sub = upperL sub from rfl, hup] at this
    exact this

/-- C1: `analyzeFrame`'s reply parsing returns FLAGGED exactly when the model
reply contains the literal token `FLAGGED` case-insensitively; any reply not
containing that token parses to SAFE. -/
theorem C1_analyzeFrameParse_flagged_iff (reply : List Char) :
    analyzeFrameParse reply = .FLAGGED ↔ containsTokenCI reply "FLAGGED".data := by
  unfold analyzeFrameParse
  by_cases h : containsSub "FLAGGED".data (upperL (trimL reply)) = true
  · rw [if_pos h]
    simp only [true_iff]
    have hinf := (containsSub_iff _ _).mp h
    obtain ⟨sub, hsub, hup⟩ := (infix_upperL_iff _ _).mp hinf
    exact ⟨sub, hsub.trans (trimL_isInfix reply), hup⟩
  · rw [if_neg h]
    constructor
    · intro hcon
      exact absurd hcon (by simp)
    · rintro ⟨sub, hsub, hup⟩
      exfalso
      apply h
      have hne : sub ≠ [] := by
        intro hnil
        rw [hnil] at hup
        exact absurd hup.symm (by decide)
      have hws : ∀ c ∈ sub, wsChar c = false := by
        intro c hc
        by_contra hcontra
        have hcws : wsChar c = true := by
          cases hb : wsChar c
          · exact absurd hb hcontra
          · rfl
        have hmem : Char.toUpper c ∈ upperL sub := List.mem_map_of_mem Char.toUpper hc
        rw [hup, wsChar_toUpper hcws] at hmem
        have : ∀ d ∈ "FLAGGED".data, wsChar d = false := by decide
        rw [this c hmem] at hcws
        exact Bool.false_ne_true hcws
      have h1 : sub <:+: trimL reply := infix_trimL_of_nonws hne hws hsub
      have h2 : upperL sub <:+: upperL (trimL reply) := List.IsInfix.map Char.toUpper h1
      rw [hup] at h2
      exact (containsSub_iff _ _).mpr h2

theorem count_verdict_partition (vs : List Verdict) :
    vs.count .FLAGGED + vs.count .SAFE + vs.count .ERROR = vs.length := by
  induction vs with
  | nil => rfl
  | cons v vs ih =>
    cases v <;> simp [List.count_cons] <;> omega

theorem counts_partition (frames : List FrameEnv) :
    flaggedCountOf frames + safeCountOf frames + errorCountOf frames = frames.length := by
  have h := count_verdict_partition (frames.map frameVerdict)
  rw [List.length_map] at h
  exact h

theorem analyzedCount_eq (frames : List FrameEnv) :
    analyzedCountOf frames = flaggedCountOf frames + safeCountOf frames := by
  have h := counts_partition frames
  unfold analyzedCountOf
  omega

/-- C9: the frame counts reported by `analyzeVideoSafety` partition the
frames: `totalFrames = flaggedFrames + safeFrames + errorFrames`, each frame
falling into exactly one bucket. -/
theorem C9_counts_partition (frames : List FrameEnv) :
    (analyzeVideoSafety frames).totalFrames =
      (analyzeVideoSafety frames).flaggedFrames + (analyzeVideoSafety frames).safeFrames +
        (analyzeVideoSafety frames).errorFrames :=
  (counts_partition frames).symm

/-- C2: under the implemented threshold policy (threshold 60%, over the
successfully analyzed frames, which is the denominator the status policy
uses), the aggregate status is flagged iff the flagged fraction strictly
exceeds the threshold; the boundary exactly at the threshold resolves to
safe, and the aggregation is a pure function, hence deterministic on
identical inputs. -/
theorem C2_threshold_aggregation_iff (frames : List FrameEnv) :
    ((analyzeVideoSafety frames).status = AggStatus.flagged ↔
      ((analyzeVideoSafety frames).flaggedFrames : ℚ) /
        ((analyzeVideoSafety frames).analyzedFrames : ℚ) > 60 / 100) := by
  have hst : (analyzeVideoSafety frames).status =
      (if flaggedPercentageOf frames > 60 then AggStatus.flagged else .safe) := rfl
  have hfl : (analyzeVideoSafety frames).flaggedFrames = flaggedCountOf frames := rfl
  have han : (analyzeVideoSafety frames).analyzedFrames = analyzedCountOf frames := rfl
  rw [hst, hfl, han]
  unfold flaggedPercentageOf
  by_cases ha : analyzedCountOf frames > 0
  · rw [if_pos ha]
    have ha' : (0 : ℚ) < (analyzedCountOf frames : ℚ) := by exact_mod_cast ha
    constructor
    · intro h
      have hgt : (flaggedCountOf frames : ℚ) / (analyzedCountOf frames : ℚ) * 100 > 60 := by
        by_contra hc
        rw [if_neg hc] at h
        exact absurd h (by decide)
      show (60 : ℚ) / 100 < _
      have h100 : (0 : ℚ) < 100 := by norm_num
      rw [div_lt_iff₀ h100]
      linarith
    · intro h
      have hgt : (flaggedCountOf frames : ℚ) / (analyzedCountOf frames : ℚ) * 100 > 60 := by
        have := (div_lt_iff₀ (by norm_num : (0 : ℚ) < 100)).mp h
        linarith
      rw [if_pos hgt]
  · rw [if_neg ha]
    have ha0 : analyzedCountOf frames = 0 := by omega
    have hf0 : flaggedCountOf frames = 0 := by
      have := analyzedCount_eq frames
      omega
    rw [if_neg (by norm_num : ¬ ((0 : ℚ) > 60))]
    constructor
    · intro h
      exact absurd h (by decide)
    · intro h
      rw [hf0, ha0] at h
      norm_num at h

/-- C4: when at least one frame was successfully analyzed, the sensitivity
score equals `round(100 * flaggedCount / totalCount)`, where the denominator
is the same error-excluding count the status policy uses. -/
theorem C4_score_rounding (frames : List FrameEnv)
    (h : (analyzeVideoSafety frames).analyzedFrames > 0) :
    (analyzeVideoSafety frames).sensitivityScore =
      jsRound (100 * ((analyzeVideoSafety frames).flaggedFrames : ℚ) /
        ((analyzeVideoSafety frames).analyzedFrames : ℚ)) := by
  have hsc : (analyzeVideoSafety frames).sensitivityScore =
      jsRound (flaggedPercentageOf frames) := rfl
  have hfl : (analyzeVideoSafety frames).flaggedFrames = flaggedCountOf frames := rfl
  have han : (analyzeVideoSafety frames).analyzedFrames = analyzedCountOf frames := rfl
  rw [han] at h
  rw [hsc, hfl, han]
  unfold flaggedPercentageOf
  rw [if_pos h]
  congr 1
  ring

theorem C4_score_rounding_witness :
    (analyzeVideoSafety [FrameEnv.reply "SAFE".data]).analyzedFrames > 0 ∧
      (analyzeVideoSafety [FrameEnv.reply "SAFE".data]).sensitivityScore =
        jsRound (100 * ((analyzeVideoSafety [FrameEnv.reply "SAFE".data]).flaggedFrames : ℚ) /
          ((analyzeVideoSafety [FrameEnv.reply "SAFE".data]).analyzedFrames : ℚ)) :=
  ⟨by decide, C4_score_rounding [FrameEnv.reply "SAFE".data] (by decide)⟩

/-- C3 (counterexample): the per-frame default verdict on classifier error is
not one uniform policy — a quota error defaults to FLAGGED while a network
error defaults to SAFE, at these concrete error messages. -/
theorem C3_counterexample_mixed_defaults :
    defaultVerdict "quota exceeded".data ≠ defaultVerdict "network timeout".data := by
  decide

/-- C3 (amended): the defaulted verdict for an errored `analyzeFrame` call is
FLAGGED exactly when the error message contains `'quota'` or `'429'`, and
SAFE for every other error, so the two defaults coexist split by error
class rather than forming a single uniform policy. -/
theorem C3_amended_default_policy (msg : List Char) :
    (analyzeFrame (FrameEnv.modelErr msg) = Except.ok Verdict.FLAGGED ↔
      (containsSub "quota".data msg || containsSub "429".data msg) = true) ∧
    (analyzeFrame (FrameEnv.modelErr msg) = Except.ok Verdict.FLAGGED ∨
      analyzeFrame (FrameEnv.modelErr msg) = Except.ok Verdict.SAFE) := by
  have hred : analyzeFrame (FrameEnv.modelErr msg) = Except.ok (defaultVerdict msg) := rfl
  rw [hred]
  unfold defaultVerdict
  by_cases h : (containsSub "quota".data msg || containsSub "429".data msg) = true
  · rw [if_pos h]
    exact ⟨by simp [h], Or.inl rfl⟩
  · rw [if_neg h]
    refine ⟨⟨fun hc => absurd hc (by simp), fun hc => absurd hc h⟩, Or.inr rfl⟩

/-- Persisted lifecycle state of a video record (`processingStatus`). -/
inductive ProcStatus where
  | pending
  | processing
  | completed
  | failed
deriving DecidableEq, Repr

/-- Persisted safety disposition (`sensitivityStatus`). -/
inductive SensStatus where
  | unknown
  | safe
  | flagged
deriving DecidableEq, Repr

def sensOf : AggStatus → SensStatus
  | .safe => .safe
  | .flagged => .flagged

/-- The persisted fields of the Video document that `processVideo` writes. -/
structure VideoRec where
  processingStatus : ProcStatus
  processingProgress : Nat
  processingError : Option (List Char)
  technicalError : Option (List Char)
  sensitivityStatus : SensStatus
  sensitivityScore : Int
  processedAt : Bool
  hasMetadata : Bool
deriving DecidableEq, Repr

/-- Friendly texts of the fixed mapping table (videoProcessor.js:157-182). -/
def corruptMsg : List Char :=
  "The video file is corrupt, empty, or was not uploaded completely. Please try re-uploading a healthy MP4 file.".data

def unreadableMsg : List Char :=
  "The file format is not supported or the video is unreadable. Please ensure you are using a standard MP4 file.".data

def extractFailMsg : List Char :=
  "Analysis failed: Could not extract frames from this video. It may be corrupted.".data

def interruptedMsg : List Char :=
  "The upload was interrupted or the file is missing from the server.".data

def aiFailMsg : List Char :=
  "AI Safety analysis failed temporarily. The organizers have been notified.".data

def genericMsg : List Char :=
  "Video processing failed due to an internal error. Please try a different file.".data

/-- `mapErrorToMessage` (videoProcessor.js:157-182): map a raw error message
to a fixed friendly text by substring tests on the lower-cased message, in
source order. -/
def mapErrorToMessage (msg : List Char) : List Char :=
  let m := lowerL msg
  if containsSub "moov atom not found".data m || containsSub "invalid data found".data m ||
      containsSub "format error".data m || containsSub "atom not found".data m then
    corruptMsg
  else if containsSub "ffprobe".data m || containsSub "exited with code 1".data m then
    unreadableMsg
  else if containsSub "ffmpeg exited with code 1".data m then
    extractFailMsg
  else if containsSub "not found".data m || containsSub "no such file".data m then
    interruptedMsg
  else if containsSub "generative".data m || containsSub "ai".data m then
    aiFailMsg
  else
    genericMsg

/-- Oracle for one `processVideo` run: the outcome of every effectful step is
chosen by the environment. `metaWrite` is the metadata-update
`findByIdAndUpdate` at videoProcessor.js:328, which runs inside the async
callback handed to `ffmpeg.ffprobe`: its rejection is not routed through
`processVideo`'s try/catch. Progress writes are modelled as succeeding, since
`updateVideoProgress` catches its own persistence errors and they alter
neither control flow nor the fields the claims are about; the notifier is
fire-and-forget and modelled as infallible. -/
structure RunEnv where
  videoFound : Bool
  fileExists : Bool
  fileSize : Nat
  probe : Except (List Char) Unit
  metaWrite : Except (List Char) Unit
  sample : Except (List Char) Unit
  frames : List FrameEnv
  aiCrash : Option (List Char)
  finalWrite : Except (List Char) Unit
  failWrite : Except (List Char) Unit

/-- `updateVideoProgress` (videoProcessor.js:137-155): persist progress and
keep the status at `processing`. -/
def updateProgress (v : VideoRec) (p : Nat) : VideoRec :=
  { v with processingProgress := p, processingStatus := .processing }

/-- The substitute analysis built when `analyzeVideoSafety` throws as a whole
(videoProcessor.js:373-381). The source object carries only `status`,
`sensitivityScore`, `totalFrames` and `flaggedFrames`; the remaining fields
are absent there and zero here, and the final write reads only `status` and
`sensitivityScore`. -/
def defaultAnalysis (n : Nat) : SafetyAnalysis :=
  { status := .safe
    sensitivityScore := 0
    totalFrames := n
    analyzedFrames := 0
    flaggedFrames := 0
    safeFrames := 0
    errorFrames := 0 }

/-- Result of the try-block of `processVideo` (videoProcessor.js:275-421):
the record and temp-directory state reached, which stages were attempted,
whether the run returned early (job record absent), the error the block threw
into the orchestrator's catch, if any, and separately `escaped`: a rejection
of the metadata-update write inside the `ffprobe` callback, which the
try/catch never sees — the wrapping Promise never settles, so the run takes
neither the success path nor the catch path and the rejection leaves
`processVideo` as an unhandled promise rejection. -/
structure BodyOut where
  record : VideoRec
  tempDirExists : Bool
  attemptedProbe : Bool
  attemptedSampling : Bool
  attemptedClassify : Bool
  earlyReturn : Bool
  raised : Option (List Char)
  escaped : Option (List Char)
deriving DecidableEq, Repr

/-- The try-block of `processVideo`, step by step. The temp directory is
created by `extractFrames` before any decode work, so it exists as soon as
the sampling stage is attempted. -/
def runBody (env : RunEnv) (v0 : VideoRec) : BodyOut :=
  if env.videoFound = false then
    { record := v0, tempDirExists := false, attemptedProbe := false,
      attemptedSampling := false, attemptedClassify := false,
      earlyReturn := true, raised := none, escaped := none }
  else if env.fileExists = false then
    { record := v0, tempDirExists := false, attemptedProbe := false,
      attemptedSampling := false, attemptedClassify := false,
      earlyReturn := false, raised := some "Video file not found on server".data,
      escaped := none }
  else if env.fileSize < 1000 then
    { record := v0, tempDirExists := false, attemptedProbe := false,
      attemptedSampling := false, attemptedClassify := false,
      earlyReturn := false, raised := some "Video file is too small or corrupted".data,
      escaped := none }
  else
    let v1 := updateProgress (updateProgress v0 5) 20
    match env.probe with
    | .error e =>
      { record := v1, tempDirExists := false, attemptedProbe := true,
        attemptedSampling := false, attemptedClassify := false,
        earlyReturn := false, raised := some e, escaped := none }
    | .ok _ =>
      match env.metaWrite with
      | .error e =>
        { record := v1, tempDirExists := false, attemptedProbe := true,
          attemptedSampling := false, attemptedClassify := false,
          earlyReturn := false, raised := none, escaped := some e }
      | .ok _ =>
        let v2 := updateProgress { v1 with hasMetadata := true } 45
        match env.sample with
        | .error _ =>
          { record := v2, tempDirExists := true, attemptedProbe := true,
            attemptedSampling := true, attemptedClassify := false,
            earlyReturn := false,
            raised := some "Could not extract frames - video may be corrupted".data,
            escaped := none }
        | .ok _ =>
          if env.frames.length = 0 then
            { record := v2, tempDirExists := true, attemptedProbe := true,
              attemptedSampling := true, attemptedClassify := false,
              earlyReturn := false,
              raised := some "Could not extract frames - video may be corrupted".data,
              escaped := none }
          else
            let v3 := updateProgress v2 75
            let analysis :=
              match env.aiCrash with
              | some _ => defaultAnalysis env.frames.length
              | none => analyzeVideoSafety env.frames
            let v4 := updateProgress v3 95
            match env.finalWrite with
            | .error e =>
              { record := v4, tempDirExists := true, attemptedProbe := true,
                attemptedSampling := true, attemptedClassify := true,
                earlyReturn := false, raised := some e, escaped := none }
            | .ok _ =>
              { record := { v4 with
                            processingStatus := .completed
                            processingProgress := 100
                            sensitivityStatus := sensOf analysis.status
                            sensitivityScore := analysis.sensitivityScore
                            processedAt := true }
                tempDirExists := true, attemptedProbe := true,
                attemptedSampling := true, attemptedClassify := true,
                earlyReturn := false, raised := none, escaped := none }

/-- The guarded temp-directory removal step (videoProcessor.js:413-420 and
449-455): `rmSync(recursive, force)` behind an `existsSync` guard; it leaves
the directory absent and raises nothing. -/
def cleanupTempDir (tempDirExists : Bool) : Except (List Char) Bool :=
  if tempDirExists then Except.ok false else Except.ok tempDirExists

/-- Final state of one `processVideo` run. -/
structure RunResult where
  record : VideoRec
  tempDirExists : Bool
  attemptedProbe : Bool
  attemptedSampling : Bool
  attemptedClassify : Bool
  cleanupRan : Bool
deriving DecidableEq, Repr

/-- The catch-block write of `processVideo` (videoProcessor.js:426-446): mark
the record failed with the friendly and the technical message; a failing
write here is caught by the inner catch and leaves the record untouched. -/
def markFailed (env : RunEnv) (v : VideoRec) (e : List Char) : VideoRec :=
  match env.failWrite with
  | .ok _ =>
    { v with
      processingStatus := .failed
      processingProgress := 0
      processingError := some (mapErrorToMessage e)
      technicalError := some e }
  | .error _ => v

/-- `processVideo` (videoProcessor.js:271-457): run the try-block; on a raise,
run the catch-block (failed-state write, then cleanup); on normal completion
of the try-block, cleanup happened at its end. The cleanup steps have their
own try/catch in the source, so a cleanup error never escapes either. But a
rejection of the metadata-update write inside the `ffprobe` callback is never
seen by the try/catch: the wrapping Promise never settles, the run continues
with neither path, and the rejection leaves `processVideo` uncaught — the
`Except.error` outcome. -/
def processVideo (env : RunEnv) (v0 : VideoRec) : Except (List Char) RunResult :=
  match (runBody env v0).escaped with
  | some e => Except.error e
  | none =>
  match (runBody env v0).raised with
  | none =>
    if (runBody env v0).earlyReturn then
      Except.ok { record := (runBody env v0).record
                  tempDirExists := (runBody env v0).tempDirExists
                  attemptedProbe := (runBody env v0).attemptedProbe
                  attemptedSampling := (runBody env v0).attemptedSampling
                  attemptedClassify := (runBody env v0).attemptedClassify
                  cleanupRan := false }
    else
      match cleanupTempDir (runBody env v0).tempDirExists with
      | .ok t =>
        Except.ok { record := (runBody env v0).record
                    tempDirExists := t
                    attemptedProbe := (runBody env v0).attemptedProbe
                    attemptedSampling := (runBody env v0).attemptedSampling
                    attemptedClassify := (runBody env v0).attemptedClassify
                    cleanupRan := true }
      | .error _ =>
        Except.ok { record := (runBody env v0).record
                    tempDirExists := (runBody env v0).tempDirExists
                    attemptedProbe := (runBody env v0).attemptedProbe
                    attemptedSampling := (runBody env v0).attemptedSampling
                    attemptedClassify := (runBody env v0).attemptedClassify
                    cleanupRan := true }
  | some e =>
    match cleanupTempDir (runBody env v0).tempDirExists with
    | .ok t =>
      Except.ok { record := markFailed env (runBody env v0).record e
                  tempDirExists := t
                  attemptedProbe := (runBody env v0).attemptedProbe
                  attemptedSampling := (runBody env v0).attemptedSampling
                  attemptedClassify := (runBody env v0).attemptedClassify
                  cleanupRan := true }
    | .error _ =>
      Except.ok { record := markFailed env (runBody env v0).record e
                  tempDirExists := (runBody env v0).tempDirExists
                  attemptedProbe := (runBody env v0).attemptedProbe
                  attemptedSampling := (runBody env v0).attemptedSampling
                  attemptedClassify := (runBody env v0).attemptedClassify
                  cleanupRan := true }

/-- Total projection of the state a run leaves behind: the returned result on
a normal return, and the state at the moment of the uncaught metadata-write
rejection on an escaping (hung) run — the record as last persisted, the
temp-directory state as is, and no cleanup. -/
def runOf (env : RunEnv) (v0 : VideoRec) : RunResult :=
  match processVideo env v0 with
  | .ok r => r
  | .error _ =>
    { record := (runBody env v0).record
      tempDirExists := (runBody env v0).tempDirExists
      attemptedProbe := (runBody env v0).attemptedProbe
      attemptedSampling := (runBody env v0).attemptedSampling
      attemptedClassify := (runBody env v0).attemptedClassify
      cleanupRan := false }

theorem cleanupTempDir_ok (b : Bool) : cleanupTempDir b = Except.ok false := by
  cases b <;> rfl

theorem runOf_eq {env : RunEnv} {v0 : VideoRec} {r : RunResult}
    (h : processVideo env v0 = Except.ok r) : runOf env v0 = r := by
  unfold runOf
  rw [h]

theorem runBody_raised_or_escaped_none (env : RunEnv) (v0 : VideoRec) :
    (runBody env v0).raised = none ∨ (runBody env v0).escaped = none := by
  unfold runBody
  repeat' split
  all_goals simp

theorem processVideo_escaped {env : RunEnv} {v0 : VideoRec} {e : List Char}
    (h : (runBody env v0).escaped = some e) :
    processVideo env v0 = Except.error e := by
  simp [processVideo, h]

theorem runOf_escaped {env : RunEnv} {v0 : VideoRec} {e : List Char}
    (h : (runBody env v0).escaped = some e) :
    runOf env v0 =
      { record := (runBody env v0).record
        tempDirExists := (runBody env v0).tempDirExists
        attemptedProbe := (runBody env v0).attemptedProbe
        attemptedSampling := (runBody env v0).attemptedSampling
        attemptedClassify := (runBody env v0).attemptedClassify
        cleanupRan := false } := by
  unfold runOf
  rw [processVideo_escaped h]

theorem runBody_escape_shape {env : RunEnv} (v0 : VideoRec) {e : List Char}
    (h : (runBody env v0).escaped = some e) :
    (runBody env v0).record.processingStatus = ProcStatus.processing ∧
    (runBody env v0).record.processingProgress = 20 ∧
    (runBody env v0).tempDirExists = false := by
  revert h
  unfold runBody
  repeat' split
  all_goals intro h
  all_goals simp_all [updateProgress]

theorem processVideo_raised {env : RunEnv} {v0 : VideoRec} {e : List Char}
    (h : (runBody env v0).raised = some e) :
    processVideo env v0 = Except.ok
      { record := markFailed env (runBody env v0).record e
        tempDirExists := false
        attemptedProbe := (runBody env v0).attemptedProbe
        attemptedSampling := (runBody env v0).attemptedSampling
        attemptedClassify := (runBody env v0).attemptedClassify
        cleanupRan := true } := by
  have h0 : (runBody env v0).escaped = none := by
    rcases runBody_raised_or_escaped_none env v0 with h1 | h1
    · rw [h] at h1
      exact absurd h1 (by simp)
    · exact h1
  simp [processVideo, h0, h, cleanupTempDir_ok]

theorem processVideo_finished {env : RunEnv} {v0 : VideoRec}
    (h : (runBody env v0).raised = none) (he : (runBody env v0).earlyReturn = false)
    (h0 : (runBody env v0).escaped = none) :
    processVideo env v0 = Except.ok
      { record := (runBody env v0).record
        tempDirExists := false
        attemptedProbe := (runBody env v0).attemptedProbe
        attemptedSampling := (runBody env v0).attemptedSampling
        attemptedClassify := (runBody env v0).attemptedClassify
        cleanupRan := true } := by
  simp [processVideo, h0, h, he, cleanupTempDir_ok]

theorem processVideo_early {env : RunEnv} {v0 : VideoRec}
    (h : (runBody env v0).raised = none) (he : (runBody env v0).earlyReturn = true)
    (h0 : (runBody env v0).escaped = none) :
    processVideo env v0 = Except.ok
      { record := (runBody env v0).record
        tempDirExists := (runBody env v0).tempDirExists
        attemptedProbe := (runBody env v0).attemptedProbe
        attemptedSampling := (runBody env v0).attemptedSampling
        attemptedClassify := (runBody env v0).attemptedClassify
        cleanupRan := false } := by
  simp [processVideo, h0, h, he]

theorem runBody_earlyReturn_false {env : RunEnv} (v0 : VideoRec)
    (hv : env.videoFound = true) : (runBody env v0).earlyReturn = false := by
  unfold runBody
  split
  · next h =>
    rw [hv] at h
    exact absurd h (by decide)
  · repeat' split
    all_goals rfl

theorem runBody_record_cases (env : RunEnv) (v0 : VideoRec) (hv : env.videoFound = true) :
    ((runBody env v0).raised = none → (runBody env v0).escaped = none →
      (runBody env v0).record.processingStatus = ProcStatus.completed ∧
      (runBody env v0).record.processingProgress = 100) ∧
    ((runBody env v0).raised ≠ none →
      ((runBody env v0).record.processingStatus = v0.processingStatus ∧
        (runBody env v0).record.processingProgress = v0.processingProgress) ∨
      ((runBody env v0).record.processingStatus = ProcStatus.processing ∧
        (runBody env v0).record.processingProgress ≠ 100)) := by
  unfold runBody
  split
  · next h =>
    rw [hv] at h
    exact absurd h (by decide)
  · repeat' split
    all_goals simp [updateProgress]

/-- C5: starting from a freshly created job record (`pending`), every run
that proceeds past the job-record lookup and leaves the record in a terminal
state persists progress 100 exactly when that state is `completed`. -/
theorem C5_terminal_progress_iff (env : RunEnv) (v0 : VideoRec)
    (hv : env.videoFound = true)
    (hs : v0.processingStatus = ProcStatus.pending)
    (ht : (runOf env v0).record.processingStatus = ProcStatus.completed ∨
      (runOf env v0).record.processingStatus = ProcStatus.failed) :
    ((runOf env v0).record.processingStatus = ProcStatus.completed ↔
      (runOf env v0).record.processingProgress = 100) := by
  have hcases := runBody_record_cases env v0 hv
  cases hesc : (runBody env v0).escaped with
  | some e =>
    obtain ⟨h1, h2, -⟩ := runBody_escape_shape v0 hesc
    have hrec : (runOf env v0).record = (runBody env v0).record := by
      rw [runOf_escaped hesc]
    rw [hrec] at ht ⊢
    rw [h1] at ht
    rcases ht with h | h <;> exact absurd h (by decide)
  | none =>
    cases hr : (runBody env v0).raised with
    | none =>
      rw [runOf_eq (processVideo_finished hr (runBody_earlyReturn_false v0 hv) hesc)]
      obtain ⟨hc, hp⟩ := hcases.1 hr hesc
      simp [hc, hp]
    | some e =>
      rw [runOf_eq (processVideo_raised hr)] at ht ⊢
      cases hw : env.failWrite with
      | ok u => simp [markFailed, hw]
      | error er =>
        simp only [markFailed, hw] at ht ⊢
        rcases hcases.2 (by simp [hr]) with ⟨h1, h2⟩ | ⟨h1, h2⟩
        · rw [h1, hs] at ht
          rcases ht with h | h <;> exact absurd h (by decide)
        · rw [h1] at ht
          rcases ht with h | h <;> exact absurd h (by decide)

/-- C8: the temp-directory removal step runs at the end of both the success
path and the failure path: every run that proceeds past the job-record lookup
and returns normally has run cleanup and leaves no temp directory; a run that
instead hangs on the uncaught metadata-write rejection escapes before the
temp directory is ever created, so no temp artifact outlives it either; and
the removal is idempotent: applying it twice (including when the directory
was never created) succeeds without error and leaves the same state as
applying it once. -/
theorem C8_cleanup_both_paths_idempotent (env : RunEnv) (v0 : VideoRec)
    (hv : env.videoFound = true) :
    (∀ r : RunResult, processVideo env v0 = Except.ok r →
      r.cleanupRan = true ∧ r.tempDirExists = false) ∧
    (∀ e : List Char, processVideo env v0 = Except.error e →
      (runOf env v0).cleanupRan = false ∧ (runOf env v0).tempDirExists = false) ∧
    (∀ b : Bool, ∃ b1 : Bool, cleanupTempDir b = Except.ok b1 ∧
      cleanupTempDir b1 = Except.ok b1) := by
  refine ⟨?_, ?_, ?_⟩
  · intro r hok
    cases hesc : (runBody env v0).escaped with
    | some e =>
      rw [processVideo_escaped hesc] at hok
      exact Except.noConfusion hok
    | none =>
      cases hr : (runBody env v0).raised with
      | none =>
        rw [processVideo_finished hr (runBody_earlyReturn_false v0 hv) hesc] at hok
        injection hok with h
        rw [← h]
        exact ⟨rfl, rfl⟩
      | some e =>
        rw [processVideo_raised hr] at hok
        injection hok with h
        rw [← h]
        exact ⟨rfl, rfl⟩
  · intro e herr
    cases hesc : (runBody env v0).escaped with
    | some e2 =>
      rw [runOf_escaped hesc]
      obtain ⟨-, -, h3⟩ := runBody_escape_shape v0 hesc
      exact ⟨rfl, h3⟩
    | none =>
      cases hr : (runBody env v0).raised with
      | none =>
        rw [processVideo_finished hr (runBody_earlyReturn_false v0 hv) hesc] at herr
        exact Except.noConfusion herr
      | some e2 =>
        rw [processVideo_raised hr] at herr
        exact Except.noConfusion herr
  · intro b
    exact ⟨false, cleanupTempDir_ok b, cleanupTempDir_ok false⟩

theorem runBody_missing_file {env : RunEnv} (v0 : VideoRec)
    (hv : env.videoFound = true) (hf : env.fileExists = false) :
    runBody env v0 =
      { record := v0, tempDirExists := false, attemptedProbe := false,
        attemptedSampling := false, attemptedClassify := false,
        earlyReturn := false,
        raised := some "Video file not found on server".data,
        escaped := none } := by
  unfold runBody
  rw [hv, hf]
  simp

theorem runBody_small_file {env : RunEnv} (v0 : VideoRec)
    (hv : env.videoFound = true) (hf : env.fileExists = true)
    (hsz : env.fileSize < 1000) :
    runBody env v0 =
      { record := v0, tempDirExists := false, attemptedProbe := false,
        attemptedSampling := false, attemptedClassify := false,
        earlyReturn := false,
        raised := some "Video file is too small or corrupted".data,
        escaped := none } := by
  unfold runBody
  rw [hv, hf]
  simp [hsz]

theorem mapError_missing_file :
    mapErrorToMessage "Video file not found on server".data = interruptedMsg := by
  decide

theorem mapError_small_file :
    mapErrorToMessage "Video file is too small or corrupted".data = genericMsg := by
  decide

/-- The claim's reading of a "corrupt-or-incomplete-upload" classification:
one of the two entries of the friendly table that speak of a corrupt, empty,
incompletely uploaded or interrupted upload. -/
def isCorruptOrIncompleteMsg (m : List Char) : Prop :=
  m = corruptMsg ∨ m = interruptedMsg

/-- A run environment for a healthy small job: record found, 5000-byte file,
probe and sampling succeed, one SAFE frame, no stage crash, writes succeed. -/
def envBase : RunEnv :=
  { videoFound := true, fileExists := true, fileSize := 5000,
    probe := Except.ok (), metaWrite := Except.ok (), sample := Except.ok (),
    frames := [FrameEnv.reply "SAFE".data], aiCrash := none,
    finalWrite := Except.ok (), failWrite := Except.ok () }

/-- A freshly created job record, as the upload handler persists it. -/
def v0Base : VideoRec :=
  { processingStatus := .pending, processingProgress := 0,
    processingError := none, technicalError := none,
    sensitivityStatus := .unknown, sensitivityScore := 0,
    processedAt := false, hasMetadata := false }

/-- `envBase` with a 0-byte uploaded file. -/
def envEmptyFile : RunEnv := { envBase with fileSize := 0 }

/-- `envBase` with the classification stage throwing as a whole. -/
def envAiCrash : RunEnv := { envBase with aiCrash := some "results push failed".data }

/-- `envBase` with the metadata-update write inside the ffprobe callback
(videoProcessor.js:328) rejecting. -/
def envMetaFail : RunEnv :=
  { envBase with metaWrite := Except.error "metadata write failed".data }

/-- C7: evaluation of the code at the failing input. When every step succeeds
except the metadata-update write awaited inside the async `ffprobe` callback,
that write's rejection escapes `processVideo` uncaught — the run returns no
result, no terminal failed transition and no error messages are persisted
(the record is left mid-processing at 20%), and the cleanup step never runs.
This refutes the claim that every internal step failure, persistence
included, is caught inside `processVideo` and converted into the terminal
failed transition. -/
theorem C7_metadata_write_escape :
    processVideo envMetaFail v0Base = Except.error "metadata write failed".data ∧
    (runOf envMetaFail v0Base).record.processingStatus = ProcStatus.processing ∧
    (runOf envMetaFail v0Base).record.processingProgress = 20 ∧
    (runOf envMetaFail v0Base).record.processingError = none ∧
    (runOf envMetaFail v0Base).cleanupRan = false := by
  refine ⟨rfl, by decide, by decide, by decide, by decide⟩

/-- C6 (counterexample): a 0-byte uploaded file short-circuits to `failed`
before any probing or sampling, but the persisted `processingError` is the
generic internal-error fallback of the friendly table, not one of its
corrupt-or-incomplete-upload classifications. -/
theorem C6_counterexample_empty_file :
    (runOf envEmptyFile v0Base).record.processingStatus = ProcStatus.failed ∧
    (runOf envEmptyFile v0Base).attemptedSampling = false ∧
    (runOf envEmptyFile v0Base).record.processingError = some genericMsg ∧
    ¬ isCorruptOrIncompleteMsg genericMsg := by
  refine ⟨by decide, by decide, by decide, ?_⟩
  intro h
  rcases h with h | h <;> exact absurd h (by decide)

/-- C6 (amended): a missing or undersized source file short-circuits the run
to `failed` before metadata extraction, frame sampling, or classification;
the persisted `processingError` is a fixed friendly text from the mapping
table — the interrupted-upload message when the file is missing, the generic
internal-error fallback when it is undersized — and never the raw internal
error string, which is persisted separately in `technicalError`. -/
theorem C6_amended_precheck_shortcircuit (env : RunEnv) (v0 : VideoRec)
    (hv : env.videoFound = true)
    (hw : env.failWrite = Except.ok ())
    (hbad : env.fileExists = false ∨ (env.fileExists = true ∧ env.fileSize < 1000)) :
    (runOf env v0).record.processingStatus = ProcStatus.failed ∧
    (runOf env v0).attemptedProbe = false ∧
    (runOf env v0).attemptedSampling = false ∧
    (runOf env v0).attemptedClassify = false ∧
    (runOf env v0).record.processingError =
      some (if env.fileExists then genericMsg else interruptedMsg) ∧
    (runOf env v0).record.processingError ≠ (runOf env v0).record.technicalError := by
  rcases hbad with hf | ⟨hf, hsz⟩
  · have hb := runBody_missing_file v0 hv hf
    have hr : (runBody env v0).raised =
        some "Video file not found on server".data := by
      rw [hb]
    rw [runOf_eq (processVideo_raised hr)]
    rw [hb]
    simp [markFailed, hw, mapError_missing_file, hf]
    decide
  · have hb := runBody_small_file v0 hv hf hsz
    have hr : (runBody env v0).raised =
        some "Video file is too small or corrupted".data := by
      rw [hb]
    rw [runOf_eq (processVideo_raised hr)]
    rw [hb]
    simp [markFailed, hw, mapError_small_file, hf]
    decide

/-- C10: if the classification stage throws as a whole after frames were
successfully extracted, the run is not marked failed: a default analysis with
safe status and score 0 is substituted, and the job is persisted as completed
with `sensitivityStatus` safe, `sensitivityScore` 0, and progress 100. -/
theorem C10_ai_failure_completes_safe (env : RunEnv) (v0 : VideoRec)
    (hv : env.videoFound = true) (hf : env.fileExists = true)
    (hsz : ¬ env.fileSize < 1000) (hpr : env.probe = Except.ok ())
    (hmw : env.metaWrite = Except.ok ())
    (hsa : env.sample = Except.ok ()) (hfr : env.frames.length ≠ 0)
    (m : List Char) (hai : env.aiCrash = some m)
    (hfw : env.finalWrite = Except.ok ()) :
    (runOf env v0).record.processingStatus = ProcStatus.completed ∧
    (runOf env v0).record.processingProgress = 100 ∧
    (runOf env v0).record.sensitivityStatus = SensStatus.safe ∧
    (runOf env v0).record.sensitivityScore = 0 := by
  have key : (runBody env v0).record.processingStatus = ProcStatus.completed ∧
      (runBody env v0).record.processingProgress = 100 ∧
      (runBody env v0).record.sensitivityStatus = SensStatus.safe ∧
      (runBody env v0).record.sensitivityScore = 0 ∧
      (runBody env v0).raised = none ∧
      (runBody env v0).escaped = none := by
    unfold runBody
    rw [hv, hf, hpr, hmw, hsa, hai, hfw]
    simp [hsz, hfr, updateProgress, sensOf, defaultAnalysis]
  rw [runOf_eq (processVideo_finished key.2.2.2.2.1 (runBody_earlyReturn_false v0 hv)
    key.2.2.2.2.2)]
  exact ⟨key.1, key.2.1, key.2.2.1, key.2.2.2.1⟩

theorem C5_terminal_progress_iff_witness :
    envBase.videoFound = true ∧ v0Base.processingStatus = ProcStatus.pending ∧
    ((runOf envBase v0Base).record.processingStatus = ProcStatus.completed ↔
      (runOf envBase v0Base).record.processingProgress = 100) :=
  ⟨rfl, rfl, C5_terminal_progress_iff envBase v0Base rfl rfl (Or.inl (by decide))⟩

theorem C8_cleanup_both_paths_idempotent_witness :
    envBase.videoFound = true ∧
    ((runOf envBase v0Base).cleanupRan = true ∧
      (runOf envBase v0Base).tempDirExists = false) :=
  ⟨rfl, (C8_cleanup_both_paths_idempotent envBase v0Base rfl).1 (runOf envBase v0Base) rfl⟩

theorem C6_amended_precheck_shortcircuit_witness :
    envEmptyFile.fileSize < 1000 ∧
    (runOf envEmptyFile v0Base).record.processingStatus = ProcStatus.failed ∧
    (runOf envEmptyFile v0Base).attemptedSampling = false ∧
    (runOf envEmptyFile v0Base).record.processingError =
      some (if envEmptyFile.fileExists then genericMsg else interruptedMsg) :=
  ⟨by decide,
   (C6_amended_precheck_shortcircuit envEmptyFile v0Base rfl rfl (Or.inr ⟨rfl, by decide⟩)).1,
   (C6_amended_precheck_shortcircuit envEmptyFile v0Base rfl rfl (Or.inr ⟨rfl, by decide⟩)).2.2.1,
   (C6_amended_precheck_shortcircuit envEmptyFile v0Base rfl rfl
     (Or.inr ⟨rfl, by decide⟩)).2.2.2.2.1⟩

theorem C10_ai_failure_completes_safe_witness :
    envAiCrash.aiCrash = some "results push failed".data ∧
    (runOf envAiCrash v0Base).record.processingStatus = ProcStatus.completed ∧
    (runOf envAiCrash v0Base).record.sensitivityStatus = SensStatus.safe ∧
    (runOf envAiCrash v0Base).record.sensitivityScore = 0 :=
  ⟨rfl,
   (C10_ai_failure_completes_safe envAiCrash v0Base rfl rfl (by decide) rfl rfl rfl
     (by decide) _ rfl rfl).1,
   (C10_ai_failure_completes_safe envAiCrash v0Base rfl rfl (by decide) rfl rfl rfl
     (by decide) _ rfl rfl).2.2.1,
   (C10_ai_failure_completes_safe envAiCrash v0Base rfl rfl (by decide) rfl rfl rfl
     (by decide) _ rfl rfl).2.2.2⟩
